import Mathlib

/-!
Verification of the `nyprsetuptools` deployment tool against its
natural-language specification.

The development shallowly embeds the Python sources:
  * `nyprsetuptools/util/wait.py`        — the generic retry/backoff primitive;
  * `nyprsetuptools/commands/deploy.py`  — `DockerDeploy` (docker invocation,
    option finalization, task-definition update, migration run with log
    tailing, service-convergence polling, cluster lookup, orchestration).

External collaborators (ECS/ECR/CloudWatch/IAM, the `docker` binary, the
process environment) are modelled as explicit inputs: response sequences,
return codes, attempt-indexed call oracles.  Machine integers are `Int`/`Nat`
(Python integers are unbounded, so no overflow modelling is needed); Python
floats used for delays/budgets are modelled as `ℚ`/`Int` where the code only
adds, subtracts and multiplies them.
-/

namespace NyprSetup

/-! ### `nyprsetuptools/util/wait.py` — the retry/backoff primitive

The Python function `wait(func, args, kwargs, attempt, backoff, delay,
exceptions, max_attempts, wait_for_func)` calls `func(*args, **kwargs)`
repeatedly.  We model one call of `func` at attempt number `k` (1-based) by an
oracle `func : Nat → CallResult α ε` which either returns a value or raises an
exception of type `ε`.  `args`/`kwargs` are fixed by the oracle.  The trace
records the outcome, how many times `func` was called, and the sequence of
delays slept (in order). -/

/-- Result of one call of the wrapped operation: a normal return or a raised
exception. -/
inductive CallResult (α : Type) (ε : Type) where
  | ret (a : α)
  | exn (e : ε)
deriving Repr, DecidableEq

/-- How a `wait` invocation ends: the first predicate-satisfying response, the
implicit `None` when attempts are exhausted, or an uncaught exception
propagating to the caller. -/
inductive WaitOutcome (α : Type) (ε : Type) where
  | success (a : α)
  | exhausted
  | raised (e : ε)
deriving Repr, DecidableEq

/-- Observable trace of a `wait` invocation: final outcome, number of calls of
the wrapped operation, and the list of delays passed to `time.sleep`, in
order. -/
structure WaitTrace (α : Type) (ε : Type) where
  outcome : WaitOutcome α ε
  calls : Nat
  sleeps : List ℚ
deriving Repr, DecidableEq

/-- `wait` from `nyprsetuptools/util/wait.py`, with every parameter explicit.
`attempt` is the 1-based attempt counter; the body runs only while
`attempt <= max_attempts`, otherwise the Python function falls through and
returns `None` (`.exhausted`).  On a return whose predicate holds it stops;
on a listed exception or a predicate failure it sleeps `delay`, multiplies
the delay by `backoff` and recurses with `attempt + 1`; an unlisted exception
propagates immediately. -/
def wait {α ε : Type} [DecidableEq ε] (func : Nat → CallResult α ε)
    (wait_for_func : α → Bool) (exceptions : List ε) (backoff : ℚ)
    (max_attempts : Nat) (attempt : Nat) (delay : ℚ) : WaitTrace α ε :=
  if _h : attempt ≤ max_attempts then
    match func attempt with
    | .ret resp =>
      if wait_for_func resp then
        { outcome := .success resp, calls := 1, sleeps := [] }
      else
        let t := wait func wait_for_func exceptions backoff max_attempts
          (attempt + 1) (backoff * delay)
        { outcome := t.outcome, calls := t.calls + 1, sleeps := delay :: t.sleeps }
    | .exn e =>
      if e ∈ exceptions then
        let t := wait func wait_for_func exceptions backoff max_attempts
          (attempt + 1) (backoff * delay)
        { outcome := t.outcome, calls := t.calls + 1, sleeps := delay :: t.sleeps }
      else
        { outcome := .raised e, calls := 1, sleeps := [] }
  else
    { outcome := .exhausted, calls := 0, sleeps := [] }
termination_by max_attempts + 1 - attempt
decreasing_by all_goals omega

/-- `wait` with the source's default keyword arguments:
`attempt=1, backoff=1.33, delay=5, max_attempts=10`. -/
def wait_defaults {α ε : Type} [DecidableEq ε] (func : Nat → CallResult α ε)
    (wait_for_func : α → Bool) (exceptions : List ε) : WaitTrace α ε :=
  wait func wait_for_func exceptions (133 / 100) 10 1 5

/-- Attempt `k` would return a response satisfying the predicate. -/
def attemptSucceeds {α ε : Type} (func : Nat → CallResult α ε)
    (wait_for_func : α → Bool) (k : Nat) : Prop :=
  ∃ a, func k = .ret a ∧ wait_for_func a = true

/-- Attempt `k` fails in a way `wait` absorbs: a response failing the
predicate, or an exception from the listed transient set. -/
def attemptFailsTransiently {α ε : Type} (func : Nat → CallResult α ε)
    (wait_for_func : α → Bool) (exceptions : List ε) (k : Nat) : Prop :=
  (∃ a, func k = .ret a ∧ wait_for_func a = false) ∨
  (∃ e, func k = .exn e ∧ e ∈ exceptions)

/-! ### `DockerDeploy.docker` — invoking the external `docker` binary

`docker(*args)` spawns the process, waits for it, and raises
`IOError('Problem building docker container, aborting.')` when the return
code is positive.  The external process is modelled by its return code; a
process that exits normally has a return code in `0..255` (Python's `Popen`
reports a negative return code only for signal-killed processes, which do not
"exit with a status"). -/

/-- One invocation of the `docker` binary, modelled by the spawned process's
return code. -/
def docker (returncode : Int) : Except String Unit :=
  if returncode > 0 then .error "Problem building docker container, aborting."
  else .ok ()

/-- A deployment phase performs a fixed sequence of `docker` invocations
(`build`, `run`, `login`, `push`, …), each executed exactly once in order;
the first raised `IOError` propagates and aborts, so later invocations never
run.  Returns how many invocations were executed together with the final
result. -/
def run_docker_sequence : List Int → Nat × Except String Unit
  | [] => (0, .ok ())
  | rc :: rest =>
    match docker rc with
    | .error e => (1, .error e)
    | .ok _ =>
      let t := run_docker_sequence rest
      (t.1 + 1, t.2)

/-! ### Python `dict` helpers

Task definitions, deployments-by-ARN and keyword-argument sets are Python
dicts.  A dict with `String` keys is modelled as an association list with
unique keys in insertion order: assignment to an existing key replaces its
value in place, assignment to a fresh key appends. -/

/-- Python `d[k] = v` on a dict with unique keys. -/
def dictSet {α : Type} : List (String × α) → String → α → List (String × α)
  | [], k, v => [(k, v)]
  | p :: rest, k, v =>
    if p.1 = k then (k, v) :: rest else p :: dictSet rest k v

/-- Python `d.get(k)` / `d[k]` lookup. -/
def dictGet {α : Type} : List (String × α) → String → Option α
  | [], _ => none
  | p :: rest, k => if p.1 = k then some p.2 else dictGet rest k

/-! ### `DockerDeploy.finalize_options` — configuration validation

All option values arrive from `initialize_options`/the CLI; strings default
to `''` and flags to `False`.  Python truthiness of a string is `≠ ""`, of a
list `≠ []`. -/

/-- `ENVIRONMENTS = frozenset({'demo', 'prod'})`. -/
def ENVIRONMENTS : List String := ["demo", "prod"]

/-- Consume `\d+\.` (one or more digits then a literal dot) from the front of
a character list, returning the remainder; the digit run is maximal, which
matches the regex because a dot is not a digit. -/
def matchDigitsDot : List Char → Option (List Char)
  | [] => none
  | c :: rest =>
    if c.isDigit then
      match rest.dropWhile (fun d => d.isDigit) with
      | '.' :: rest2 => some rest2
      | _ => none
    else none

/-- Python `s.startswith(pre)`: is `pre` a prefix of `s`?  (Implemented over
character lists so that it evaluates inside the kernel.) -/
def py_startswith (s pre : String) : Bool :=
  List.isPrefixOf pre.toList s.toList

/-- Does `v\d+\.\d+\.\d+` match at the start of the character list? -/
def matchVersionTag (l : List Char) : Bool :=
  match l with
  | 'v' :: r1 =>
    match matchDigitsDot r1 with
    | some r2 =>
      match matchDigitsDot r2 with
      | some r3 =>
        match r3 with
        | c :: _ => c.isDigit
        | [] => false
      | none => false
    | none => false
  | _ => false

/-- `DockerDeploy.tag_pattern.match(tag)`: the anchored-prefix match of
`(?P<tag>v\d+\.\d+\.\d+|demo)` succeeds. -/
def tag_pattern_match (tag : String) : Bool :=
  matchVersionTag tag.toList || py_startswith tag "demo"

/-- Python `int(s)` on a string: surrounding whitespace allowed, optional
sign, decimal digits; raises `ValueError` otherwise.  (Underscore separators
are not modelled; the tool's callers pass plain integers.) -/
def pyIntParse (s : String) : Except String Int :=
  match s.trim.toInt? with
  | some n => .ok n
  | none => .error ("invalid literal for int with base 10: " ++ s)

/-- `shlex.split` for the command strings this tool receives: splits on
spaces, dropping empty fields.  (Quoting/escaping is not modelled; no claim
depends on it.) -/
def shlex_split (s : String) : List String :=
  (s.splitOn " ").filter (fun w => w ≠ "")

/-- The `DockerDeploy` option attributes as set by `initialize_options` and
the CLI, before `finalize_options` runs.  All value options are strings. -/
structure RawConfig where
  environment : String
  environment_var_override : String
  no_strict_environment : Bool
  ecs_cluster : String
  cluster_override : String
  ecs_service : String
  ecr_repository : String
  tag : String
  memory_reservation : String
  memory_reservation_hard : String
  cpu : String
  ports : String
  command : String
  test : String
  test_user : String
  fargate : Bool
  execution_role : String
  task_role : String
  no_service : Bool
  wait : String
  migrate : String
deriving Repr, DecidableEq

/-- The attributes after a successful `finalize_options`: the cluster name is
environment-suffixed (or taken from the override), `wait` is an integer, and
`ports`/`test`/`migrate` are split into lists (empty list when unset,
matching Python falsiness of `''`). -/
structure FinalizedOptions where
  environment : String
  environment_var_override : String
  no_strict_environment : Bool
  ecs_cluster : String
  ecs_service : String
  ecr_repository : String
  tag : String
  memory_reservation : String
  memory_reservation_hard : String
  cpu : String
  ports : List String
  command : String
  test : List String
  test_user : String
  fargate : Bool
  execution_role : String
  task_role : String
  no_service : Bool
  wait : Int
  migrate : List String
deriving Repr, DecidableEq

/-- `DockerDeploy.finalize_options`, with each `raise ValueError(...)`
modelled as `.error`.  The checks run in source order; `int(self.wait)` can
itself raise (`pyIntParse`). -/
def finalize_options (c : RawConfig) : Except String FinalizedOptions :=
  if c.environment = "" then
    .error "--environment cannot be empty."
  else if c.environment ∉ ENVIRONMENTS ∧ c.no_strict_environment = false then
    .error "--environment must be one of (demo,prod)."
  else if c.no_strict_environment = false ∧ tag_pattern_match c.tag = false then
    .error "--tag must match expression"
  else if c.ecs_cluster = "" ∧ c.cluster_override = "" then
    .error "--ecs-cluster or --cluster-override must be provided"
  else
    if c.ecr_repository = "" then
      .error "--ecr-repository must be provided"
    else if c.memory_reservation ≠ "" ∧ c.memory_reservation_hard ≠ "" then
      .error "--memory-reservation and --memory-reservation-hard are mutually exclusive"
    else if c.fargate = true ∧
        ¬(c.execution_role ≠ "" ∧ c.memory_reservation ≠ "" ∧ c.cpu ≠ "") then
      .error "--fargate flag requires --execution-role, --memory-reservation, and --cpu"
    else
      match pyIntParse c.wait with
      | .error e => .error e
      | .ok w =>
        .ok { environment := c.environment
              environment_var_override := c.environment_var_override
              no_strict_environment := c.no_strict_environment
              ecs_cluster :=
                if c.ecs_cluster ≠ "" then c.ecs_cluster ++ "-" ++ c.environment
                else c.cluster_override
              ecs_service := c.ecs_service
              ecr_repository := c.ecr_repository
              tag := c.tag
              memory_reservation := c.memory_reservation
              memory_reservation_hard := c.memory_reservation_hard
              cpu := c.cpu
              ports := if c.ports ≠ "" then c.ports.splitOn "," else []
              command := c.command
              test := if c.test ≠ "" then shlex_split c.test else []
              test_user := c.test_user
              fargate := c.fargate
              execution_role := c.execution_role
              task_role := c.task_role
              no_service := c.no_service
              wait := w
              migrate := if c.migrate ≠ "" then shlex_split c.migrate else [] }

/-! ### `DockerDeploy.update_task_definition`

A container definition fetched from `describe_task_definition` is a Python
dict (JSON object); the method mutates a handful of its keys and registers
the result.  Values are modelled by a small Python-value type. -/

/-- A Python/JSON value as stored in a task-definition dict. -/
inductive PyVal where
  | str (s : String)
  | int (n : Int)
  | list (l : List PyVal)
  | dict (d : List (String × PyVal))
deriving Repr

/-- Python `int(s)` where the caller guarantees a valid integer literal (the
flag values `--memory-reservation`, `--cpu`, `--ports` reach this after
validation); on an invalid literal Python would raise, which
`update_task_definition` does not catch. -/
def pyInt (s : String) : Int :=
  (s.trim.toInt?).getD 0

/-- `DockerDeploy.update_task_definition`, given the resolved environment
variables (`get_circle_environment_variables`, `None` off CircleCI modelled
as `[]`), the IAM `get_role` lookup, and the container definitions returned
by `describe_task_definition`.  Produces the `containerDefinitions` list and
the extra keyword arguments passed to `register_task_definition`, or the
raised error.  `NotImplementedError` is raised for multi-container tasks;
indexing `container_defs[0]` on an empty list would raise `IndexError`. -/
def update_task_definition (cfg : FinalizedOptions)
    (env_vars : List (String × String)) (getRoleArn : String → String)
    (container_defs : List (List (String × PyVal))) (image : String) :
    Except String (List (List (String × PyVal)) × List (String × PyVal)) :=
  if container_defs.length > 1 then
    .error "This command currently only supports single-container tasks"
  else
    match container_defs with
    | [] => .error "IndexError: list index out of range"
    | task_def0 :: _ =>
      let td1 := dictSet task_def0 "image" (.str image)
      let td2 :=
        if env_vars ≠ [] then
          dictSet td1 "environment"
            (.list (env_vars.map (fun kv => .dict [("name", .str kv.1), ("value", .str kv.2)])))
        else td1
      let td3 :=
        if cfg.memory_reservation ≠ "" then
          dictSet td2 "memoryReservation" (.int (pyInt cfg.memory_reservation))
        else if cfg.memory_reservation_hard ≠ "" then
          dictSet td2 "memory" (.str cfg.memory_reservation_hard)
        else td2
      let td4 := if cfg.cpu ≠ "" then dictSet td3 "cpu" (.int (pyInt cfg.cpu)) else td3
      let td5 :=
        if cfg.ports ≠ [] then
          dictSet td4 "portMappings"
            (.list (cfg.ports.map (fun p => .dict [("containerPort", .int (pyInt p))])))
        else td4
      let td6 := if cfg.command ≠ "" then dictSet td5 "command" (.str cfg.command) else td5
      let additional_args : List (String × PyVal) :=
        if cfg.fargate then
          [("networkMode", .str "awsvpc"),
           ("requiresCompatibilities", .list [.str "EC2", .str "FARGATE"]),
           ("executionRoleArn", .str (getRoleArn cfg.execution_role)),
           ("taskRoleArn", .str (if cfg.task_role ≠ "" then getRoleArn cfg.task_role else "")),
           ("cpu", .str cfg.cpu),
           ("memory", .str cfg.memory_reservation)]
        else []
      .ok ([td6], additional_args)

/-! ### `DockerDeploy.run_migration` — exit code and log tailing

Log retrieval: `read_logs` calls `get_log_events` (through `wait`, retrying
`ClientError` until the stream exists) with `startFromHead=True` on the first
call and the previous `nextForwardToken` afterwards.  CloudWatch semantics:
the stream is a sequence of events; a forward token denotes a position; each
call returns some batch of events from that position and the token one past
the last returned event.  The service chooses each batch's size, so a run is
determined by the stream and the per-call batch size limits. -/

/-- `get_log_events` on a stream of messages: return up to `limit` events
starting at position `pos` together with the next forward token. -/
def get_log_events (stream : List String) (pos : Nat) (limit : Nat) :
    List String × Nat :=
  let events := (stream.drop pos).take limit
  (events, pos + events.length)

/-- The batches returned by the successive `read_logs` calls of one
`run_migration`, threading the forward token exactly as the code does (head
on the first call, then each call resumes at the returned token). -/
def read_logs_batches (stream : List String) : Nat → List Nat → List (List String)
  | _, [] => []
  | pos, limit :: limits =>
    let r := get_log_events stream pos limit
    r.1 :: read_logs_batches stream r.2 limits

/-- The messages printed by `run_migration`'s log tailing, in print order:
each `read_logs` call prints its batch's messages via
`for event in resp['events']: print(event['message'])`. -/
def run_migration_printed (stream : List String) : Nat → List Nat → List String
  | _, [] => []
  | pos, limit :: limits =>
    let r := get_log_events stream pos limit
    r.1 ++ run_migration_printed stream r.2 limits

/-- `resp['tasks'][0]['containers'][0].get('exitCode', 1)`: the container
exit code of the stopped task, or `1` when the container never started and
the key is absent.  ECS container exit codes are non-negative. -/
def migration_exit_code (containerExitCode : Option Nat) : Nat :=
  containerExitCode.getD 1

/-- The tail of `run_migration`: `raise SystemExit(...)` when the exit code
is positive, normal return otherwise. -/
def run_migration_outcome (containerExitCode : Option Nat) : Except String Unit :=
  if migration_exit_code containerExitCode > 0 then
    .error "Migration command failed, aborting."
  else .ok ()

/-! ### `DockerDeploy.update_service` — the convergence polling loop

After `ecs.update_service`, the code loops:

```
to_stop = to_start = None
while ((to_stop is None and to_start is None) or
        (self.wait > 0 and to_stop + to_start > 0)):
    ... describe_services ...
    new = wait(deployments.pop, args=[task_definition_arn], exceptions=[KeyError])
    if not new: sleep; self.wait -= elapsed; continue
    old = first remaining deployment, or {'runningCount': 0}
    to_stop, to_start = old.runningCount, new.desiredCount - new.runningCount
    sleep; self.wait -= elapsed
    if to_stop + to_start == 0: break
```

One loop iteration is driven by one `describe_services` response together
with the wall-clock seconds the iteration consumed (at least 5, from the
`time.sleep(5)`; more when the `wait`-wrapped `pop` retried).  `to_stop` and
`to_start` are always assigned together, so the pair is one optional value.
The wait budget (a float in the source) is modelled as `Int` seconds. -/

/-- One entry of `resp['services'][0]['deployments']`. -/
structure Deployment where
  taskDefinition : String
  desiredCount : Int
  runningCount : Int
deriving Repr, DecidableEq

/-- One `describe_services` response, with the wall-clock seconds the
iteration that received it consumed (`time.time()` difference). -/
structure DescribeServicesResponse where
  deployments : List Deployment
  elapsed : Nat
deriving Repr, DecidableEq

/-- `{d['taskDefinition']: d for d in resp['services'][0]['deployments']}`. -/
def deployments_by_arn (ds : List Deployment) : List (String × Deployment) :=
  ds.foldl (fun m d => dictSet m d.taskDefinition d) []

/-- `wait(deployments.pop, args=[task_definition_arn], exceptions=[KeyError])`:
each attempt pops the same key from the same dict, so the lookup either
succeeds on the first attempt or raises `KeyError` until the ten attempts are
exhausted, returning `None`. -/
def deployment_lookup (deployments : List (String × Deployment))
    (task_definition_arn : String) : Option Deployment :=
  match (wait_defaults
      (fun _ => match dictGet deployments task_definition_arn with
        | some d => CallResult.ret d
        | none => CallResult.exn "KeyError")
      (fun _ => true) ["KeyError"]).outcome with
  | .success d => some d
  | _ => none

/-- The polling loop's mutable state: the remaining wait budget and the last
computed `(to_stop, to_start)` pair (`none` before the first computation). -/
structure ServiceWaitState where
  wait : Int
  counts : Option (Int × Int)
deriving Repr, DecidableEq

/-- The `while` guard.  The second disjunct is evaluated only when the pair
has been assigned (Python short-circuits, so `None + None` is never
computed). -/
def update_service_cond (s : ServiceWaitState) : Bool :=
  match s.counts with
  | none => true
  | some c => decide (s.wait > 0) && decide (c.1 + c.2 > 0)

/-- One iteration of the polling loop body on one `describe_services`
response.  Returns the updated state and whether the body hit the
convergence `break`.  In the `none` case the retried lookup exhausted its
attempts (`wait` returned `None`), and the body prints, sleeps and
`continue`s; in the `some` case `old` is the first remaining deployment
after `pop`ping the new one, defaulting to `{'runningCount': 0}`. -/
def update_service_step (task_definition_arn : String) (s : ServiceWaitState)
    (resp : DescribeServicesResponse) : ServiceWaitState × Bool :=
  match deployment_lookup (deployments_by_arn resp.deployments) task_definition_arn with
  | none =>
    ({ s with wait := s.wait - resp.elapsed }, false)
  | some new =>
    let old_runningCount : Int :=
      match (deployments_by_arn resp.deployments).filter
          (fun p => p.1 ≠ task_definition_arn) with
      | [] => 0
      | p :: _ => p.2.runningCount
    ({ wait := s.wait - resp.elapsed,
       counts := some (old_runningCount, new.desiredCount - new.runningCount) },
     old_runningCount + (new.desiredCount - new.runningCount) == 0)

/-- How a run of the polling loop against a finite response sequence ended. -/
inductive UpdateServiceOutcome where
  | converged
  | exited
  | stillLooping
deriving Repr, DecidableEq

/-- The polling loop run against a finite sequence of `describe_services`
responses: `.converged` when the body hit the convergence `break`, `.exited`
when the `while` guard became false, `.stillLooping` when the supplied
responses ran out with the guard still true (the loop would keep polling).
Also returns the final state and the number of iterations executed (one
`describe_services` call each). -/
def update_service_loop (task_definition_arn : String) (s : ServiceWaitState) :
    List DescribeServicesResponse → UpdateServiceOutcome × ServiceWaitState × Nat
  | [] =>
    if update_service_cond s then (.stillLooping, s, 0) else (.exited, s, 0)
  | r :: rs =>
    if update_service_cond s then
      if (update_service_step task_definition_arn s r).2 then
        (.converged, (update_service_step task_definition_arn s r).1, 1)
      else
        ((update_service_loop task_definition_arn
            (update_service_step task_definition_arn s r).1 rs).1,
         (update_service_loop task_definition_arn
            (update_service_step task_definition_arn s r).1 rs).2.1,
         (update_service_loop task_definition_arn
            (update_service_step task_definition_arn s r).1 rs).2.2 + 1)
    else (.exited, s, 0)

/-- `update_service` enters the loop with `to_stop = to_start = None` and the
remaining wait budget. -/
def update_service_run (task_definition_arn : String) (wait_budget : Int)
    (resps : List DescribeServicesResponse) :
    UpdateServiceOutcome × ServiceWaitState × Nat :=
  update_service_loop task_definition_arn ⟨wait_budget, none⟩ resps

/-- `update_service_step` with the retried lookup replaced by the direct
dict lookup it evaluates to (proved equal in
`deployment_lookup_eq_dictGet`/`update_service_step_eq_exec`); `wait` is
defined by well-founded recursion, which the kernel does not reduce, so this
mirror lets concrete loop runs be evaluated. -/
def update_service_step_exec (task_definition_arn : String) (s : ServiceWaitState)
    (resp : DescribeServicesResponse) : ServiceWaitState × Bool :=
  match dictGet (deployments_by_arn resp.deployments) task_definition_arn with
  | none =>
    ({ s with wait := s.wait - resp.elapsed }, false)
  | some new =>
    let old_runningCount : Int :=
      match (deployments_by_arn resp.deployments).filter
          (fun p => p.1 ≠ task_definition_arn) with
      | [] => 0
      | p :: _ => p.2.runningCount
    ({ wait := s.wait - resp.elapsed,
       counts := some (old_runningCount, new.desiredCount - new.runningCount) },
     old_runningCount + (new.desiredCount - new.runningCount) == 0)

/-- `update_service_loop` over the executable step mirror. -/
def update_service_loop_exec (task_definition_arn : String) (s : ServiceWaitState) :
    List DescribeServicesResponse → UpdateServiceOutcome × ServiceWaitState × Nat
  | [] =>
    if update_service_cond s then (.stillLooping, s, 0) else (.exited, s, 0)
  | r :: rs =>
    if update_service_cond s then
      if (update_service_step_exec task_definition_arn s r).2 then
        (.converged, (update_service_step_exec task_definition_arn s r).1, 1)
      else
        ((update_service_loop_exec task_definition_arn
            (update_service_step_exec task_definition_arn s r).1 rs).1,
         (update_service_loop_exec task_definition_arn
            (update_service_step_exec task_definition_arn s r).1 rs).2.1,
         (update_service_loop_exec task_definition_arn
            (update_service_step_exec task_definition_arn s r).1 rs).2.2 + 1)
    else (.exited, s, 0)

/-! ### `DockerDeploy.get_ecs_cluster` -/

/-- Python `s.split('/', 1)[-1]`: everything after the first `'/'`, or the
whole string when it contains none. -/
def after_first_slash (s : String) : String :=
  match s.toList.dropWhile (fun c => c ≠ '/') with
  | [] => s
  | _ :: rest => String.mk rest

/-- The loop's test: the cluster name (ARN segment after the first slash)
starts with the configured cluster name. -/
def cluster_matches (ecs_cluster : String) (clusterArn : String) : Bool :=
  py_startswith (after_first_slash clusterArn) ecs_cluster

/-- `DockerDeploy.get_ecs_cluster` over the ARNs returned by
`list_clusters`: the `for ... break / else: raise` picks the first matching
ARN or raises `ValueError`. -/
def get_ecs_cluster (ecs_cluster : String) (clusterArns : List String) :
    Except String String :=
  match clusterArns.find? (cluster_matches ecs_cluster) with
  | some c => .ok c
  | none => .error ("Cluster " ++ ecs_cluster ++ " does not exist, aborting.")

/-! ### `DockerDeploy.run` — orchestration order

`run` builds, pushes and updates the task definition, then (when a migration
command is configured or the service update is not skipped) resolves the
cluster, runs the migration — whose `SystemExit` aborts everything after it —
and finally updates the service.  Only the phase order and the abort
behaviour are modelled; each phase's internals are modelled above. -/

/-- The externally visible phases of `DockerDeploy.run`, in execution
order. -/
inductive DeployPhase where
  | build
  | push
  | update_task_definition
  | get_ecs_cluster
  | run_migration
  | update_service
deriving Repr, DecidableEq

/-- The sequence of phases `DockerDeploy.run` executes and its final result,
as a function of the finalized `migrate`/`no_service` options and the
migration container's exit code (irrelevant when no migration runs). -/
def run_phases (migrate : List String) (no_service : Bool)
    (containerExitCode : Option Nat) : List DeployPhase × Except String Unit :=
  let pre := [DeployPhase.build, DeployPhase.push, DeployPhase.update_task_definition]
  if migrate ≠ [] ∨ no_service = false then
    if migrate ≠ [] then
      match run_migration_outcome containerExitCode with
      | .error e =>
        (pre ++ [DeployPhase.get_ecs_cluster, DeployPhase.run_migration], .error e)
      | .ok _ =>
        if no_service = false then
          (pre ++ [DeployPhase.get_ecs_cluster, DeployPhase.run_migration,
                   DeployPhase.update_service], .ok ())
        else
          (pre ++ [DeployPhase.get_ecs_cluster, DeployPhase.run_migration], .ok ())
    else
      if no_service = false then
        (pre ++ [DeployPhase.get_ecs_cluster, DeployPhase.update_service], .ok ())
      else (pre, .ok ())
  else (pre, .ok ())

/-! ## Helper lemmas about `wait`

One conditional rewriting lemma per branch of the body. -/

lemma wait_step_out_of_attempts {α ε : Type} [DecidableEq ε]
    (func : Nat → CallResult α ε) (p : α → Bool) (exs : List ε) (b : ℚ)
    (m a : Nat) (d : ℚ) (hm : ¬ a ≤ m) :
    wait func p exs b m a d = ⟨.exhausted, 0, []⟩ := by
  rw [wait]; simp [hm]

lemma wait_step_success {α ε : Type} [DecidableEq ε]
    (func : Nat → CallResult α ε) (p : α → Bool) (exs : List ε) (b : ℚ)
    (m a : Nat) (d : ℚ) (r : α) (hm : a ≤ m) (hf : func a = .ret r)
    (hp : p r = true) :
    wait func p exs b m a d = ⟨.success r, 1, []⟩ := by
  rw [wait]; simp [hm, hf, hp]

lemma wait_step_pred_false {α ε : Type} [DecidableEq ε]
    (func : Nat → CallResult α ε) (p : α → Bool) (exs : List ε) (b : ℚ)
    (m a : Nat) (d : ℚ) (r : α) (hm : a ≤ m) (hf : func a = .ret r)
    (hp : p r = false) :
    wait func p exs b m a d =
      ⟨(wait func p exs b m (a + 1) (b * d)).outcome,
       (wait func p exs b m (a + 1) (b * d)).calls + 1,
       d :: (wait func p exs b m (a + 1) (b * d)).sleeps⟩ := by
  rw [wait]; simp [hm, hf, hp]

lemma wait_step_transient_exn {α ε : Type} [DecidableEq ε]
    (func : Nat → CallResult α ε) (p : α → Bool) (exs : List ε) (b : ℚ)
    (m a : Nat) (d : ℚ) (e : ε) (hm : a ≤ m) (hf : func a = .exn e)
    (he : e ∈ exs) :
    wait func p exs b m a d =
      ⟨(wait func p exs b m (a + 1) (b * d)).outcome,
       (wait func p exs b m (a + 1) (b * d)).calls + 1,
       d :: (wait func p exs b m (a + 1) (b * d)).sleeps⟩ := by
  rw [wait]; simp [hm, hf, he]

lemma wait_step_raise {α ε : Type} [DecidableEq ε]
    (func : Nat → CallResult α ε) (p : α → Bool) (exs : List ε) (b : ℚ)
    (m a : Nat) (d : ℚ) (e : ε) (hm : a ≤ m) (hf : func a = .exn e)
    (he : e ∉ exs) :
    wait func p exs b m a d = ⟨.raised e, 1, []⟩ := by
  rw [wait]; simp [hm, hf, he]

/-- The delay value influences only the slept durations: outcome, number of
calls and number of sleeps are delay-independent. -/
lemma wait_delay_irrelevant {α ε : Type} [DecidableEq ε]
    (func : Nat → CallResult α ε) (p : α → Bool) (exs : List ε) (b : ℚ)
    (m : Nat) : ∀ (n a : Nat), m + 1 - a = n → ∀ (d d' : ℚ),
    (wait func p exs b m a d).outcome = (wait func p exs b m a d').outcome ∧
    (wait func p exs b m a d).calls = (wait func p exs b m a d').calls ∧
    (wait func p exs b m a d).sleeps.length = (wait func p exs b m a d').sleeps.length := by
  intro n
  induction n with
  | zero =>
    intro a ha d d'
    have hm : ¬ a ≤ m := by omega
    rw [wait_step_out_of_attempts func p exs b m a d hm,
        wait_step_out_of_attempts func p exs b m a d' hm]
    exact ⟨rfl, rfl, rfl⟩
  | succ k ih =>
    intro a ha d d'
    have hm : a ≤ m := by omega
    cases hf : func a with
    | ret r =>
      cases hp : p r with
      | true =>
        rw [wait_step_success func p exs b m a d r hm hf hp,
            wait_step_success func p exs b m a d' r hm hf hp]
        exact ⟨rfl, rfl, rfl⟩
      | false =>
        have h := ih (a + 1) (by omega) (b * d) (b * d')
        rw [wait_step_pred_false func p exs b m a d r hm hf hp,
            wait_step_pred_false func p exs b m a d' r hm hf hp]
        exact ⟨h.1, by simp [h.2.1], by simp [h.2.2]⟩
    | exn e =>
      by_cases he : e ∈ exs
      · have h := ih (a + 1) (by omega) (b * d) (b * d')
        rw [wait_step_transient_exn func p exs b m a d e hm hf he,
            wait_step_transient_exn func p exs b m a d' e hm hf he]
        exact ⟨h.1, by simp [h.2.1], by simp [h.2.2]⟩
      · rw [wait_step_raise func p exs b m a d e hm hf he,
            wait_step_raise func p exs b m a d' e hm hf he]
        exact ⟨rfl, rfl, rfl⟩

/-- The wrapped operation is called at most `max_attempts + 1 - attempt`
times. -/
lemma wait_calls_le {α ε : Type} [DecidableEq ε]
    (func : Nat → CallResult α ε) (p : α → Bool) (exs : List ε) (b : ℚ)
    (m : Nat) : ∀ (n a : Nat), m + 1 - a = n → ∀ (d : ℚ),
    (wait func p exs b m a d).calls ≤ n := by
  intro n
  induction n with
  | zero =>
    intro a ha d
    have hm : ¬ a ≤ m := by omega
    rw [wait_step_out_of_attempts func p exs b m a d hm]
  | succ k ih =>
    intro a ha d
    have hm : a ≤ m := by omega
    cases hf : func a with
    | ret r =>
      cases hp : p r with
      | true =>
        rw [wait_step_success func p exs b m a d r hm hf hp]
        show 1 ≤ k + 1
        omega
      | false =>
        have h := ih (a + 1) (by omega) (b * d)
        rw [wait_step_pred_false func p exs b m a d r hm hf hp]
        simpa using Nat.add_le_add_right h 1
    | exn e =>
      by_cases he : e ∈ exs
      · have h := ih (a + 1) (by omega) (b * d)
        rw [wait_step_transient_exn func p exs b m a d e hm hf he]
        simpa using Nat.add_le_add_right h 1
      · rw [wait_step_raise func p exs b m a d e hm hf he]
        show 1 ≤ k + 1
        omega

/-- The slept delays form the geometric sequence
`delay, backoff*delay, backoff^2*delay, …`. -/
lemma wait_sleeps_geometric {α ε : Type} [DecidableEq ε]
    (func : Nat → CallResult α ε) (p : α → Bool) (exs : List ε) (b : ℚ)
    (m : Nat) : ∀ (n a : Nat), m + 1 - a = n → ∀ (d : ℚ),
    (wait func p exs b m a d).sleeps =
      (List.range (wait func p exs b m a d).sleeps.length).map (fun i => d * b ^ i) := by
  intro n
  induction n with
  | zero =>
    intro a ha d
    have hm : ¬ a ≤ m := by omega
    rw [wait_step_out_of_attempts func p exs b m a d hm]
    rfl
  | succ k ih =>
    intro a ha d
    have hm : a ≤ m := by omega
    have geom : ∀ (t : List ℚ), t = (List.range t.length).map (fun i => (b * d) * b ^ i) →
        d :: t = (List.range (d :: t).length).map (fun i => d * b ^ i) := by
      intro t ht
      have hlen : (d :: t).length = t.length + 1 := rfl
      rw [hlen, List.range_succ_eq_map, List.map_cons, List.map_map]
      congr 1
      · simp
      · conv_lhs => rw [ht]
        apply List.map_congr_left
        intro i _
        simp only [Function.comp_apply, Nat.succ_eq_add_one, pow_succ]
        ring
    cases hf : func a with
    | ret r =>
      cases hp : p r with
      | true =>
        rw [wait_step_success func p exs b m a d r hm hf hp]
        rfl
      | false =>
        have h := ih (a + 1) (by omega) (b * d)
        rw [wait_step_pred_false func p exs b m a d r hm hf hp]
        exact geom _ h
    | exn e =>
      by_cases he : e ∈ exs
      · have h := ih (a + 1) (by omega) (b * d)
        rw [wait_step_transient_exn func p exs b m a d e hm hf he]
        exact geom _ h
      · rw [wait_step_raise func p exs b m a d e hm hf he]
        rfl

/-- Running `wait` over a block of `n` transiently failing attempts advances
the attempt counter by `n`, adding `n` calls and `n` sleeps. -/
lemma wait_transient_block {α ε : Type} [DecidableEq ε]
    (func : Nat → CallResult α ε) (p : α → Bool) (exs : List ε) (b : ℚ)
    (m : Nat) : ∀ (n a : Nat) (d : ℚ),
    (∀ j, a ≤ j → j < a + n → attemptFailsTransiently func p exs j) →
    a + n ≤ m + 1 →
    (wait func p exs b m a d).outcome = (wait func p exs b m (a + n) d).outcome ∧
    (wait func p exs b m a d).calls = n + (wait func p exs b m (a + n) d).calls ∧
    (wait func p exs b m a d).sleeps.length =
      n + (wait func p exs b m (a + n) d).sleeps.length := by
  intro n
  induction n with
  | zero => intro a d _ _; simp
  | succ k ih =>
    intro a d hfail hle
    have hm : a ≤ m := by omega
    have hstep := hfail a (Nat.le_refl a) (by omega)
    have hrest : ∀ j, a + 1 ≤ j → j < (a + 1) + k → attemptFailsTransiently func p exs j := by
      intro j h1 h2
      exact hfail j (by omega) (by omega)
    have hih := ih (a + 1) (b * d) hrest (by omega)
    have hswap := wait_delay_irrelevant func p exs b m (m + 1 - (a + 1 + k)) (a + 1 + k) rfl (b * d) d
    have haddr : a + 1 + k = a + (k + 1) := by omega
    rw [haddr] at hih hswap
    rcases hstep with ⟨r, hf, hp⟩ | ⟨e, hf, he⟩
    · rw [wait_step_pred_false func p exs b m a d r hm hf hp]
      refine ⟨?_, ?_, ?_⟩
      · simpa using hih.1.trans hswap.1
      · have h2 := hih.2.1.trans (by rw [hswap.2.1])
        simp only [h2]
        omega
      · have h2 := hih.2.2.trans (by rw [hswap.2.2])
        simp only [List.length_cons, h2]
        omega
    · rw [wait_step_transient_exn func p exs b m a d e hm hf he]
      refine ⟨?_, ?_, ?_⟩
      · simpa using hih.1.trans hswap.1
      · have h2 := hih.2.1.trans (by rw [hswap.2.1])
        simp only [h2]
        omega
      · have h2 := hih.2.2.trans (by rw [hswap.2.2])
        simp only [List.length_cons, h2]
        omega

/-! ## Claims about the retry/backoff primitive -/

/-- Claim C2: for every operation, success predicate and transient-exception
set (an operation whose raised exceptions all lie in the transient set), the
`wait` function calls the operation at most `max_attempts` times, sleeps the
geometrically growing delays `delay, backoff*delay, backoff^2*delay, …`
(the delay is multiplied by the backoff factor after each failed attempt),
returns the first result for which the predicate holds, and returns the
absent result (`None`/`.exhausted`) when all attempts are exhausted.  The
source defaults are `max_attempts = 10`, `delay = 5`, `backoff = 1.33`
(`wait_defaults`). -/
theorem wait_bounded_retry_first_success {α ε : Type} [DecidableEq ε]
    (func : Nat → CallResult α ε) (wait_for_func : α → Bool)
    (exceptions : List ε) (backoff : ℚ) (max_attempts : Nat) (delay : ℚ)
    (H : ∀ k e, 1 ≤ k → k ≤ max_attempts → func k = .exn e → e ∈ exceptions) :
    (wait func wait_for_func exceptions backoff max_attempts 1 delay).calls ≤ max_attempts ∧
    (wait func wait_for_func exceptions backoff max_attempts 1 delay).sleeps =
      (List.range
        (wait func wait_for_func exceptions backoff max_attempts 1 delay).sleeps.length).map
        (fun i => delay * backoff ^ i) ∧
    ((∀ k, 1 ≤ k → k ≤ max_attempts → ¬ attemptSucceeds func wait_for_func k) →
      (wait func wait_for_func exceptions backoff max_attempts 1 delay).outcome = .exhausted ∧
      (wait func wait_for_func exceptions backoff max_attempts 1 delay).calls = max_attempts) ∧
    (∀ k a, 1 ≤ k → k ≤ max_attempts → func k = .ret a → wait_for_func a = true →
      (∀ j, 1 ≤ j → j < k → ¬ attemptSucceeds func wait_for_func j) →
      (wait func wait_for_func exceptions backoff max_attempts 1 delay).outcome = .success a ∧
      (wait func wait_for_func exceptions backoff max_attempts 1 delay).calls = k) := by
  refine ⟨?_, ?_, ?_, ?_⟩
  · exact wait_calls_le func wait_for_func exceptions backoff max_attempts
      max_attempts 1 (by omega) delay
  · exact wait_sleeps_geometric func wait_for_func exceptions backoff max_attempts
      max_attempts 1 (by omega) delay
  · intro hall
    have htrans : ∀ j, 1 ≤ j → j < 1 + max_attempts →
        attemptFailsTransiently func wait_for_func exceptions j := by
      intro j hj1 hj2
      cases hfj : func j with
      | ret r =>
        cases hp : wait_for_func r with
        | true => exact absurd ⟨r, hfj, hp⟩ (hall j hj1 (by omega))
        | false => exact Or.inl ⟨r, hfj, hp⟩
      | exn e => exact Or.inr ⟨e, hfj, H j e hj1 (by omega) hfj⟩
    have block := wait_transient_block func wait_for_func exceptions backoff
      max_attempts max_attempts 1 delay (fun j hj1 hj2 => htrans j hj1 hj2) (by omega)
    have hstop := wait_step_out_of_attempts func wait_for_func exceptions backoff
      max_attempts (1 + max_attempts) delay (by omega)
    refine ⟨?_, ?_⟩
    · rw [block.1, hstop]
    · rw [block.2.1, hstop]
      show max_attempts + 0 = max_attempts
      omega
  · intro k a hk1 hk2 hf hp hprev
    have htrans : ∀ j, 1 ≤ j → j < 1 + (k - 1) →
        attemptFailsTransiently func wait_for_func exceptions j := by
      intro j hj1 hj2
      cases hfj : func j with
      | ret r =>
        cases hpr : wait_for_func r with
        | true => exact absurd ⟨r, hfj, hpr⟩ (hprev j hj1 (by omega))
        | false => exact Or.inl ⟨r, hfj, hpr⟩
      | exn e => exact Or.inr ⟨e, hfj, H j e hj1 (by omega) hfj⟩
    have block := wait_transient_block func wait_for_func exceptions backoff
      max_attempts (k - 1) 1 delay htrans (by omega)
    have hk : 1 + (k - 1) = k := by omega
    rw [hk] at block
    have hstep := wait_step_success func wait_for_func exceptions backoff
      max_attempts k delay a hk2 hf hp
    refine ⟨?_, ?_⟩
    · rw [block.1, hstep]
    · rw [block.2.1, hstep]
      show k - 1 + 1 = k
      omega

/-- Witness for C2: an operation returning its attempt number, with the
predicate "equals 3", succeeds on the third call under the default
parameters. -/
theorem wait_bounded_retry_first_success_witness :
    (wait (fun j => CallResult.ret j) (fun a => a == 3) ([] : List String)
      (133 / 100) 10 1 5).outcome = WaitOutcome.success 3 ∧
    (wait (fun j => CallResult.ret j) (fun a => a == 3) ([] : List String)
      (133 / 100) 10 1 5).calls = 3 := by
  have H : ∀ k e, 1 ≤ k → k ≤ 10 →
      (fun j => CallResult.ret (ε := String) j) k = .exn e →
      e ∈ ([] : List String) := by
    intro k e _ _ h
    exact absurd h (by simp)
  have main := wait_bounded_retry_first_success (fun j => CallResult.ret j)
    (fun a => a == 3) ([] : List String) (133 / 100) 10 5 H
  have hprev : ∀ j, 1 ≤ j → j < 3 →
      ¬ attemptSucceeds (fun j => CallResult.ret (ε := String) j) (fun a => a == 3) j := by
    intro j hj1 hj2 hsucc
    obtain ⟨a, ha, hpa⟩ := hsucc
    have haj : j = a := by
      simpa [CallResult.ret.injEq] using ha
    have ha3 : a = 3 := by
      simpa using hpa
    omega
  exact main.2.2.2 3 3 (by omega) (by omega) rfl (by decide) hprev

/-- Claim C9: if the wrapped operation raises an exception whose type is not
in the supplied exceptions list, that exception propagates immediately: no
further attempt is made (`calls = k`), no backoff sleep follows the raising
attempt (`k - 1` sleeps, one per earlier failed attempt), and no result is
returned (the outcome is `.raised`). -/
theorem wait_unlisted_exception_propagates {α ε : Type} [DecidableEq ε]
    (func : Nat → CallResult α ε) (wait_for_func : α → Bool)
    (exceptions : List ε) (backoff : ℚ) (max_attempts : Nat) (delay : ℚ)
    (k : Nat) (e : ε) (hk1 : 1 ≤ k) (hk2 : k ≤ max_attempts)
    (hf : func k = .exn e) (he : e ∉ exceptions)
    (hprev : ∀ j, 1 ≤ j → j < k →
      attemptFailsTransiently func wait_for_func exceptions j) :
    (wait func wait_for_func exceptions backoff max_attempts 1 delay).outcome = .raised e ∧
    (wait func wait_for_func exceptions backoff max_attempts 1 delay).calls = k ∧
    (wait func wait_for_func exceptions backoff max_attempts 1 delay).sleeps.length = k - 1 := by
  have htrans : ∀ j, 1 ≤ j → j < 1 + (k - 1) →
      attemptFailsTransiently func wait_for_func exceptions j := by
    intro j hj1 hj2
    exact hprev j hj1 (by omega)
  have block := wait_transient_block func wait_for_func exceptions backoff
    max_attempts (k - 1) 1 delay htrans (by omega)
  have hk : 1 + (k - 1) = k := by omega
  rw [hk] at block
  have hstep := wait_step_raise func wait_for_func exceptions backoff
    max_attempts k delay e hk2 hf he
  refine ⟨?_, ?_, ?_⟩
  · rw [block.1, hstep]
  · rw [block.2.1, hstep]
    show k - 1 + 1 = k
    omega
  · rw [block.2.2, hstep]
    show k - 1 + ([] : List ℚ).length = k - 1
    simp

/-- Witness for C9: an operation that raises `RuntimeError` on its first call
while only `KeyError` is listed as transient propagates immediately. -/
theorem wait_unlisted_exception_propagates_witness :
    (wait (fun _ => CallResult.exn (α := Nat) "RuntimeError") (fun _ => true)
      ["KeyError"] (133 / 100) 10 1 5).outcome = WaitOutcome.raised "RuntimeError" ∧
    (wait (fun _ => CallResult.exn (α := Nat) "RuntimeError") (fun _ => true)
      ["KeyError"] (133 / 100) 10 1 5).calls = 1 ∧
    (wait (fun _ => CallResult.exn (α := Nat) "RuntimeError") (fun _ => true)
      ["KeyError"] (133 / 100) 10 1 5).sleeps.length = 1 - 1 := by
  exact wait_unlisted_exception_propagates
    (fun _ => CallResult.exn (α := Nat) "RuntimeError") (fun _ => true)
    ["KeyError"] (133 / 100) 10 5 1 "RuntimeError" (by omega) (by omega) rfl
    (by decide) (by intro j hj1 hj2; omega)

/-! ## Dict lemmas -/

lemma dictGet_dictSet_self {β : Type} :
    ∀ (d : List (String × β)) (k : String) (v : β),
    dictGet (dictSet d k v) k = some v := by
  intro d
  induction d with
  | nil => intro k v; simp [dictSet, dictGet]
  | cons p rest ih =>
    intro k v
    by_cases hp : p.1 = k
    · simp [dictSet, dictGet, hp]
    · simp only [dictSet, hp, if_false]
      simp [dictGet, hp, ih]

lemma dictGet_dictSet_ne {β : Type} :
    ∀ (d : List (String × β)) (k : String) (v : β) (k' : String), k ≠ k' →
    dictGet (dictSet d k v) k' = dictGet d k' := by
  intro d
  induction d with
  | nil => intro k v k' hne; simp [dictSet, dictGet, hne]
  | cons p rest ih =>
    intro k v k' hne
    by_cases hp : p.1 = k
    · simp only [dictSet, hp, if_true]
      simp [dictGet, hne, hp]
    · simp only [dictSet, hp, if_false]
      by_cases hp' : p.1 = k'
      · simp [dictGet, hp']
      · simp [dictGet, hp', ih k v k' hne]

/-! ## Claims about `update_task_definition` -/

/-- Claim C5: with no optional overrides configured (no resolved environment
variables, no memory reservation, no hard memory limit, no CPU, no ports, no
command override, Fargate disabled), `update_task_definition` registers a
revision whose single container definition is the fetched one with only the
`image` key changed to the new image reference (and no extra registration
keyword arguments). -/
theorem update_task_definition_no_overrides_only_image (cfg : FinalizedOptions)
    (env_vars : List (String × String)) (getRoleArn : String → String)
    (td : List (String × PyVal)) (image : String)
    (h1 : env_vars = []) (h2 : cfg.memory_reservation = "")
    (h3 : cfg.memory_reservation_hard = "") (h4 : cfg.cpu = "")
    (h5 : cfg.ports = []) (h6 : cfg.command = "") (h7 : cfg.fargate = false) :
    update_task_definition cfg env_vars getRoleArn [td] image =
      .ok ([dictSet td "image" (PyVal.str image)], []) ∧
    dictGet (dictSet td "image" (PyVal.str image)) "image" = some (PyVal.str image) ∧
    ∀ k, k ≠ "image" → dictGet (dictSet td "image" (PyVal.str image)) k = dictGet td k := by
  refine ⟨?_, dictGet_dictSet_self td "image" (PyVal.str image),
    fun k hk => dictGet_dictSet_ne td "image" (PyVal.str image) k (Ne.symm hk)⟩
  unfold update_task_definition
  simp [h1, h2, h3, h4, h5, h6, h7]

/-- Witness for C5: a two-key container definition with every override
unset gets exactly its `image` value replaced. -/
theorem update_task_definition_no_overrides_only_image_witness :
    update_task_definition
      { environment := "prod", environment_var_override := "",
        no_strict_environment := false, ecs_cluster := "c-prod",
        ecs_service := "", ecr_repository := "r", tag := "v1.0.0",
        memory_reservation := "", memory_reservation_hard := "", cpu := "",
        ports := [], command := "", test := [], test_user := "",
        fargate := false, execution_role := "", task_role := "",
        no_service := false, wait := 0, migrate := [] }
      [] (fun _ => "")
      [[("name", PyVal.str "app"), ("image", PyVal.str "old-image"),
        ("cpu", PyVal.int 256)]] "repo:new" =
      .ok ([[("name", PyVal.str "app"), ("image", PyVal.str "repo:new"),
        ("cpu", PyVal.int 256)]], []) := by
  have h := (update_task_definition_no_overrides_only_image
    { environment := "prod", environment_var_override := "",
      no_strict_environment := false, ecs_cluster := "c-prod",
      ecs_service := "", ecr_repository := "r", tag := "v1.0.0",
      memory_reservation := "", memory_reservation_hard := "", cpu := "",
      ports := [], command := "", test := [], test_user := "",
      fargate := false, execution_role := "", task_role := "",
      no_service := false, wait := 0, migrate := [] }
    [] (fun _ => "")
    [("name", PyVal.str "app"), ("image", PyVal.str "old-image"),
     ("cpu", PyVal.int 256)] "repo:new"
    rfl rfl rfl rfl rfl rfl rfl).1
  rw [h]
  rfl

/-! ## Claims about `docker` -/

/-- Claim C8: when an external docker command (`build`, `run`, `login`,
`push`) exits with a non-zero status, `docker` raises the
`IOError('Problem building docker container, aborting.')` that aborts the
whole deployment; the failing invocation runs exactly once (no retry) and no
later invocation of the sequence runs. -/
theorem docker_nonzero_exit_aborts_no_retry (pre post : List Int) (rc : Nat)
    (hpre : ∀ x ∈ pre, x = 0) (hrc : rc ≠ 0) :
    run_docker_sequence (pre ++ (rc : Int) :: post) =
      (pre.length + 1, .error "Problem building docker container, aborting.") := by
  induction pre with
  | nil =>
    have hpos : (0 : Int) < (rc : Int) := by
      exact_mod_cast Nat.pos_of_ne_zero hrc
    simp [run_docker_sequence, docker, hpos]
  | cons x xs ih =>
    have hx : x = 0 := hpre x (by simp)
    have hxs : ∀ y ∈ xs, y = 0 := fun y hy => hpre y (by simp [hy])
    subst hx
    have h0 : run_docker_sequence ((0 : Int) :: (xs ++ (rc : Int) :: post)) =
        ((run_docker_sequence (xs ++ (rc : Int) :: post)).1 + 1,
         (run_docker_sequence (xs ++ (rc : Int) :: post)).2) := rfl
    rw [List.cons_append, h0, ih hxs]
    simp

/-- Witness for C8: two successful invocations followed by one exiting with
status 2 — the run aborts after three executions, never reaching the fourth
command and never re-running the failed one. -/
theorem docker_nonzero_exit_aborts_no_retry_witness :
    run_docker_sequence ([0, 0] ++ ((2 : Nat) : Int) :: [0]) =
      ((2 : Nat) + 1, .error "Problem building docker container, aborting.") := by
  exact docker_nonzero_exit_aborts_no_retry [0, 0] [0] 2 (by decide) (by decide)

/-! ## Claims about `run_migration` / `run` orchestration -/

/-- Claim C6: a migration container whose exit code is absent when the task
stops is treated as failed (exit code defaults to 1); and whenever the
observed exit code is nonzero the deployment aborts with the fatal
`SystemExit('Migration command failed, aborting.')` before `update_service`
is ever invoked, so no service-update call is made. -/
theorem run_migration_nonzero_exit_aborts (migrate : List String)
    (no_service : Bool) (ec : Option Nat) (hm : migrate ≠ [])
    (hec : 0 < migration_exit_code ec) :
    migration_exit_code none = 1 ∧
    (run_phases migrate no_service ec).2 =
      .error "Migration command failed, aborting." ∧
    DeployPhase.update_service ∉ (run_phases migrate no_service ec).1 := by
  have houtcome : run_migration_outcome ec =
      .error "Migration command failed, aborting." := by
    unfold run_migration_outcome
    simp [hec]
  refine ⟨rfl, ?_, ?_⟩
  · unfold run_phases
    simp [hm, houtcome]
  · unfold run_phases
    simp only [hm, ne_eq, not_false_eq_true, true_or, if_true, houtcome]
    decide

/-- Witness for C6: a migration task stopping with container exit code 1
aborts the run after the migration phase. -/
theorem run_migration_nonzero_exit_aborts_witness :
    migration_exit_code none = 1 ∧
    (run_phases ["migrate"] false (some 1)).2 =
      .error "Migration command failed, aborting." ∧
    DeployPhase.update_service ∉ (run_phases ["migrate"] false (some 1)).1 := by
  exact run_migration_nonzero_exit_aborts ["migrate"] false (some 1)
    (by decide) (by decide)

/-! ## Claims about `finalize_options` -/

/-- Claim C7: in every configuration where both the soft memory reservation
and the hard memory limit are set (non-empty), `finalize_options` raises a
`ValueError` — either the mutual-exclusion error or an earlier validation
error — so validation fails before `run` can make any external call. -/
theorem finalize_options_memory_flags_error (c : RawConfig)
    (h1 : c.memory_reservation ≠ "") (h2 : c.memory_reservation_hard ≠ "") :
    ∃ msg, finalize_options c = .error msg := by
  unfold finalize_options
  by_cases hA : c.environment = ""
  · rw [if_pos hA]; exact ⟨_, rfl⟩
  · rw [if_neg hA]
    by_cases hB : c.environment ∉ ENVIRONMENTS ∧ c.no_strict_environment = false
    · rw [if_pos hB]; exact ⟨_, rfl⟩
    · rw [if_neg hB]
      by_cases hC : c.no_strict_environment = false ∧ tag_pattern_match c.tag = false
      · rw [if_pos hC]; exact ⟨_, rfl⟩
      · rw [if_neg hC]
        by_cases hD : c.ecs_cluster = "" ∧ c.cluster_override = ""
        · rw [if_pos hD]; exact ⟨_, rfl⟩
        · rw [if_neg hD]
          by_cases hE : c.ecr_repository = ""
          · rw [if_pos hE]; exact ⟨_, rfl⟩
          · rw [if_neg hE, if_pos ⟨h1, h2⟩]
            exact ⟨_, rfl⟩

/-- Witness for C7: `memory_reservation="512"` together with
`memory_reservation_hard="1024"` makes `finalize_options` fail. -/
theorem finalize_options_memory_flags_error_witness :
    ∃ msg, finalize_options
      { environment := "prod", environment_var_override := "",
        no_strict_environment := false, ecs_cluster := "cl",
        cluster_override := "", ecs_service := "", ecr_repository := "repo",
        tag := "v1.0.0", memory_reservation := "512",
        memory_reservation_hard := "1024", cpu := "256", ports := "",
        command := "", test := "", test_user := "", fargate := false,
        execution_role := "", task_role := "", no_service := false,
        wait := "0", migrate := "" } = .error msg := by
  exact finalize_options_memory_flags_error _ (by decide) (by decide)

/-! ## Claims about `get_ecs_cluster` -/

/-- `List.find?` returns the first element satisfying the predicate: every
earlier element fails it. -/
lemma find?_first_index {β : Type} (p : β → Bool) :
    ∀ (l : List β) (c : β), l.find? p = some c →
    ∃ i, ∃ h : i < l.length, l.get ⟨i, h⟩ = c ∧ p c = true ∧
      ∀ j, ∀ hj : j < l.length, j < i → p (l.get ⟨j, hj⟩) = false := by
  intro l
  induction l with
  | nil => intro c h; simp at h
  | cons x xs ih =>
    intro c h
    by_cases hx : p x = true
    · rw [List.find?_cons_of_pos _ hx] at h
      obtain rfl : x = c := by injection h
      exact ⟨0, by simp, rfl, hx, fun j hj hji => absurd hji (by omega)⟩
    · have hxf : p x = false := by
        simpa using hx
      rw [List.find?_cons_of_neg _ hx] at h
      obtain ⟨i, hi, hgs, hpc, hprev⟩ := ih c h
      refine ⟨i + 1, by simpa using Nat.succ_lt_succ hi, by simpa using hgs, hpc, ?_⟩
      intro j hj hji
      cases j with
      | zero => exact hxf
      | succ j' =>
        have hj' : j' < xs.length := by simpa using hj
        exact hprev j' hj' (by omega)

/-- Claim C10: `get_ecs_cluster` returns the first ARN in `list_clusters`
order whose cluster name — the ARN segment after the first `'/'` — starts
with the configured cluster name (`cluster_matches` is a prefix test, not an
exact-name test), and raises `ValueError` exactly when no listed cluster name
has that prefix. -/
theorem get_ecs_cluster_first_matching (ecs_cluster : String)
    (clusterArns : List String) :
    (∀ c, get_ecs_cluster ecs_cluster clusterArns = .ok c →
      ∃ i, ∃ h : i < clusterArns.length, clusterArns.get ⟨i, h⟩ = c ∧
        cluster_matches ecs_cluster c = true ∧
        ∀ j, ∀ hj : j < clusterArns.length, j < i →
          cluster_matches ecs_cluster (clusterArns.get ⟨j, hj⟩) = false) ∧
    ((∀ c ∈ clusterArns, cluster_matches ecs_cluster c = false) ↔
      ∃ msg, get_ecs_cluster ecs_cluster clusterArns = .error msg) := by
  constructor
  · intro c hok
    unfold get_ecs_cluster at hok
    cases hfind : clusterArns.find? (cluster_matches ecs_cluster) with
    | none => rw [hfind] at hok; exact absurd hok (by simp)
    | some d =>
      rw [hfind] at hok
      obtain rfl : d = c := by injection hok
      exact find?_first_index (cluster_matches ecs_cluster) clusterArns d hfind
  · constructor
    · intro hall
      have hnone : clusterArns.find? (cluster_matches ecs_cluster) = none :=
        List.find?_eq_none.mpr (fun x hx => by simp [hall x hx])
      unfold get_ecs_cluster
      rw [hnone]
      exact ⟨_, rfl⟩
    · rintro ⟨msg, herr⟩ c hc
      unfold get_ecs_cluster at herr
      cases hfind : clusterArns.find? (cluster_matches ecs_cluster) with
      | some d => rw [hfind] at herr; exact absurd herr (by simp)
      | none =>
        have := List.find?_eq_none.mp hfind c hc
        simpa using this

/-- Witness for C10: with clusters `["arn:aws:ecs:x/other", "arn:aws:ecs:x/api-prod-cluster"]`
the lookup for `api-prod` picks the second ARN — a strict-prefix match, not
an exact-name match — and an unmatched name yields the error. -/
theorem get_ecs_cluster_first_matching_witness :
    get_ecs_cluster "api-prod"
      ["arn:aws:ecs:x/other", "arn:aws:ecs:x/api-prod-cluster"] =
      .ok "arn:aws:ecs:x/api-prod-cluster" ∧
    ∃ msg, get_ecs_cluster "api-prod" ["arn:aws:ecs:x/other"] = .error msg := by
  constructor
  · have hfind : (["arn:aws:ecs:x/other", "arn:aws:ecs:x/api-prod-cluster"]).find?
        (cluster_matches "api-prod") = some "arn:aws:ecs:x/api-prod-cluster" := by
      decide
    unfold get_ecs_cluster
    rw [hfind]
  · exact (get_ecs_cluster_first_matching "api-prod" ["arn:aws:ecs:x/other"]).2.mp
      (by decide)

/-! ## Claims about `run_migration` log tailing -/

/-- The printed messages are the concatenation of the returned batches. -/
lemma run_migration_printed_eq_join (stream : List String) :
    ∀ (limits : List Nat) (pos : Nat),
    run_migration_printed stream pos limits =
      (read_logs_batches stream pos limits).flatten := by
  intro limits
  induction limits with
  | nil => intro pos; rfl
  | cons k ks ih =>
    intro pos
    show (stream.drop pos).take k ++
        run_migration_printed stream (pos + ((stream.drop pos).take k).length) ks =
      ((stream.drop pos).take k ::
        read_logs_batches stream (pos + ((stream.drop pos).take k).length) ks).flatten
    rw [ih]
    rfl

/-- A take-prefix followed by the drop of its own length restores the
list. -/
lemma take_append_drop_length {β : Type} (l : List β) (k : Nat) :
    l.take k ++ l.drop ((l.take k).length) = l := by
  rcases le_or_lt k l.length with h | h
  · rw [List.length_take, Nat.min_eq_left h, List.take_append_drop]
  · rw [List.length_take, Nat.min_eq_right (Nat.le_of_lt h), List.drop_length,
      List.append_nil]
    exact List.take_of_length_le (Nat.le_of_lt h)

/-- The token threading makes the printed messages a contiguous prefix of
the log stream from the starting position. -/
lemma run_migration_printed_isPrefix (stream : List String) :
    ∀ (limits : List Nat) (pos : Nat),
    run_migration_printed stream pos limits <+: stream.drop pos := by
  intro limits
  induction limits with
  | nil => intro pos; exact List.nil_prefix
  | cons k ks ih =>
    intro pos
    obtain ⟨u, hu⟩ := ih (pos + ((stream.drop pos).take k).length)
    have hdd : stream.drop (pos + ((stream.drop pos).take k).length) =
        (stream.drop pos).drop ((stream.drop pos).take k).length := by
      rw [List.drop_drop, Nat.add_comm]
    rw [hdd] at hu
    show (stream.drop pos).take k ++
        run_migration_printed stream (pos + ((stream.drop pos).take k).length) ks <+:
      stream.drop pos
    refine ⟨u, ?_⟩
    rw [List.append_assoc, hu]
    exact take_append_drop_length (stream.drop pos) k

/-- Claim C4: for every fixed log stream and sequence of service-chosen
batch sizes, the messages `run_migration`'s log tailing prints are exactly
the concatenation of the returned batches in arrival order, and they form a
contiguous prefix of the stream — every event printed exactly once, nothing
duplicated or dropped across a pagination-token boundary. -/
theorem run_migration_log_tailing_order_preserving (stream : List String)
    (limits : List Nat) :
    run_migration_printed stream 0 limits =
      (read_logs_batches stream 0 limits).flatten ∧
    run_migration_printed stream 0 limits =
      stream.take (run_migration_printed stream 0 limits).length := by
  refine ⟨run_migration_printed_eq_join stream limits 0, ?_⟩
  have hpre := run_migration_printed_isPrefix stream limits 0
  rw [List.drop_zero] at hpre
  exact List.prefix_iff_eq_take.mp hpre

/-! ## Claims about `update_service` -/

/-- The retried `deployments.pop` lookup behaves as a plain dict lookup: a
present key is returned on the first attempt; a missing key raises
`KeyError` on every attempt until the ten defaults are exhausted and `wait`
returns `None`. -/
lemma deployment_lookup_eq_dictGet (d : List (String × Deployment))
    (arn : String) : deployment_lookup d arn = dictGet d arn := by
  unfold deployment_lookup wait_defaults
  cases hg : dictGet d arn with
  | some dep =>
    simp only [hg]
    rw [wait_step_success (fun _ : Nat => CallResult.ret dep) (fun _ => true)
      ["KeyError"] (133 / 100) 10 1 5 dep (by omega) rfl rfl]
  | none =>
    simp only [hg]
    have htrans : ∀ j, 1 ≤ j → j < 1 + 10 → attemptFailsTransiently
        (fun _ : Nat => CallResult.exn (α := Deployment) "KeyError")
        (fun _ => true) ["KeyError"] j :=
      fun j _ _ => Or.inr ⟨"KeyError", rfl, by simp⟩
    have block := wait_transient_block
      (fun _ : Nat => CallResult.exn (α := Deployment) "KeyError")
      (fun _ => true) ["KeyError"] (133 / 100) 10 10 1 5 htrans (by omega)
    have hstop := wait_step_out_of_attempts
      (fun _ : Nat => CallResult.exn (α := Deployment) "KeyError")
      (fun _ => true) ["KeyError"] (133 / 100) 10 (1 + 10) 5 (by omega)
    rw [block.1, hstop]

/-- The loop step agrees with its executable mirror. -/
lemma update_service_step_eq_exec (arn : String) (s : ServiceWaitState)
    (resp : DescribeServicesResponse) :
    update_service_step arn s resp = update_service_step_exec arn s resp := by
  unfold update_service_step update_service_step_exec
  rw [deployment_lookup_eq_dictGet]

/-- The loop agrees with its executable mirror. -/
lemma update_service_loop_eq_exec (arn : String) :
    ∀ (resps : List DescribeServicesResponse) (s : ServiceWaitState),
    update_service_loop arn s resps = update_service_loop_exec arn s resps := by
  intro resps
  induction resps with
  | nil => intro s; rfl
  | cons r rs ih =>
    intro s
    unfold update_service_loop update_service_loop_exec
    rw [update_service_step_eq_exec, ih]

/-- Once the `while` guard is false the loop exits immediately, whatever
responses would follow. -/
lemma update_service_loop_cond_false (arn : String) (s : ServiceWaitState)
    (hs : update_service_cond s = false) :
    ∀ resps, update_service_loop arn s resps = (.exited, s, 0) := by
  intro resps
  cases resps with
  | nil => simp [update_service_loop, hs]
  | cons r rs => simp [update_service_loop, hs]

/-- Claim C3: with a wait budget of 0 and the new revision's deployment
present in the first `describe_services` response, the polling loop runs
exactly one iteration (one `describe_services` call) and exits — by the
convergence `break` or by the guard — regardless of whether convergence was
reached. -/
theorem update_service_zero_wait_one_iteration (arn : String)
    (r : DescribeServicesResponse) (rest : List DescribeServicesResponse)
    (hfound : dictGet (deployments_by_arn r.deployments) arn ≠ none) :
    (update_service_run arn 0 (r :: rest)).2.2 = 1 ∧
    ((update_service_run arn 0 (r :: rest)).1 = UpdateServiceOutcome.converged ∨
     (update_service_run arn 0 (r :: rest)).1 = UpdateServiceOutcome.exited) := by
  obtain ⟨new, hnew⟩ : ∃ v, dictGet (deployments_by_arn r.deployments) arn = some v := by
    cases h : dictGet (deployments_by_arn r.deployments) arn with
    | none => exact absurd h hfound
    | some v => exact ⟨v, rfl⟩
  have hstep : update_service_step arn ⟨0, none⟩ r =
      ({ wait := (0 : Int) - r.elapsed,
         counts := some
           ((match (deployments_by_arn r.deployments).filter
               (fun p => p.1 ≠ arn) with
             | [] => (0 : Int)
             | p :: _ => p.2.runningCount),
            new.desiredCount - new.runningCount) },
       ((match (deployments_by_arn r.deployments).filter
           (fun p => p.1 ≠ arn) with
         | [] => (0 : Int)
         | p :: _ => p.2.runningCount) +
         (new.desiredCount - new.runningCount)) == 0) := by
    unfold update_service_step
    rw [deployment_lookup_eq_dictGet, hnew]
  have hcond : update_service_cond ⟨0, none⟩ = true := rfl
  unfold update_service_run
  simp only [update_service_loop, hcond, if_true, hstep]
  cases hbrk : ((match (deployments_by_arn r.deployments).filter
        (fun p => p.1 ≠ arn) with
      | [] => (0 : Int)
      | p :: _ => p.2.runningCount) +
      (new.desiredCount - new.runningCount)) == 0 with
  | true =>
    simp only [hbrk, if_true]
    simp
  | false =>
    have hc2 : update_service_cond
        ⟨(0 : Int) - r.elapsed,
         some ((match (deployments_by_arn r.deployments).filter
             (fun p => p.1 ≠ arn) with
           | [] => (0 : Int)
           | p :: _ => p.2.runningCount),
          new.desiredCount - new.runningCount)⟩ = false := by
      have hle : ¬((0 : Int) - r.elapsed > 0) := by omega
      simp only [update_service_cond]
      rw [decide_eq_false hle, Bool.false_and]
    simp only [hbrk, Bool.false_eq_true, if_false,
      update_service_loop_cond_false arn _ hc2 rest]
    simp

/-- Witness for C3: wait budget 0, the new deployment in the first response
(not yet converged: one task still to start), one further response
available — the loop stops after a single iteration. -/
theorem update_service_zero_wait_one_iteration_witness :
    (update_service_run "svc" 0
      [⟨[⟨"svc", 1, 0⟩], 7⟩, ⟨[⟨"svc", 1, 1⟩], 7⟩]).2.2 = 1 ∧
    ((update_service_run "svc" 0
      [⟨[⟨"svc", 1, 0⟩], 7⟩, ⟨[⟨"svc", 1, 1⟩], 7⟩]).1 =
        UpdateServiceOutcome.converged ∨
     (update_service_run "svc" 0
      [⟨[⟨"svc", 1, 0⟩], 7⟩, ⟨[⟨"svc", 1, 1⟩], 7⟩]).1 =
        UpdateServiceOutcome.exited) := by
  exact update_service_zero_wait_one_iteration "svc" ⟨[⟨"svc", 1, 0⟩], 7⟩
    [⟨[⟨"svc", 1, 1⟩], 7⟩] (by decide)

/-- Claim C1 (violated by the code): with a wait budget of 1 second and
`describe_services` responses that never contain the new revision's
deployment (each iteration consuming 10 seconds of wall clock), the loop's
guard stays true forever — `to_stop`/`to_start` remain `None`, so the first
disjunct of the guard holds no matter how negative the budget becomes.
After three full iterations the budget is −29 yet the loop is still
polling, so it does not terminate when the wait budget is exhausted;
the retried lookup's exhaustion itself is absorbed (`None`, printed as a
waiting message, no crash). -/
theorem update_service_missing_deployment_never_times_out :
    update_service_run "arn:new" 1
      [⟨[⟨"arn:old", 2, 2⟩], 10⟩, ⟨[⟨"arn:old", 2, 2⟩], 10⟩,
       ⟨[⟨"arn:old", 2, 2⟩], 10⟩] =
      (UpdateServiceOutcome.stillLooping, ⟨-29, none⟩, 3) ∧
    update_service_cond ⟨-29, none⟩ = true := by
  constructor
  · unfold update_service_run
    rw [update_service_loop_eq_exec]
    decide
  · rfl

end NyprSetup
